import Mathlib

/-!
Verification of the analysis-and-cache core of the `cf_ai_solarflare`
repository (a privacy-policy analyzer running on Cloudflare Workers).

The relevant JavaScript is embedded shallowly:
* `calculateRiskScores`, `chunkContent`, `analyzeChunk` and
  `performAIAnalysis` from `src/cloudflare-backend/src/api/results.js`
  (the `PolicyAnalyzer` class);
* `handleStore` / `handleCheck` / `alarm` of the `PolicyCache` durable
  object from `src/cloudflare-backend/src/durable-objects/policy-cache.js`;
* `checkRateLimit` from `src/cloudflare-backend/src/utils/validation.js`;
* `handleAnalyze` from the analyze API endpoint.

JavaScript strings are modelled as `List Char` where character-level
operations matter (the chunker) and as `String` elsewhere; timestamps are
`Int` (milliseconds); `Map` objects are association lists; exceptions are
`Option`/`Except`; external effects (HTTP fetch, the Workers AI inference
call together with `JSON.parse` of its output, durable-object sub-requests)
are oracle parameters supplied to the embedded handler.
-/

/-! ## Risk scorer (results.js, `calculateRiskScores`) -/

/-- The three traffic-light severity levels used by the risk scorer. -/
inductive Risk where
  | green
  | yellow
  | red
deriving DecidableEq, Repr

/-- Numeric rank of a severity level, realizing the order
green < yellow < red used by the spec. -/
def riskRank : Risk → Nat
  | Risk.green => 0
  | Risk.yellow => 1
  | Risk.red => 2

/-- Order on severity levels: `a` is at most `b` when its rank is. -/
def riskLe (a b : Risk) : Prop := riskRank a ≤ riskRank b

instance (a b : Risk) : Decidable (riskLe a b) := by
  unfold riskLe; infer_instance

/-- Maximum of two severity levels under green < yellow < red. -/
def riskMax (a b : Risk) : Risk :=
  if riskRank a ≤ riskRank b then b else a

/-- The `compliance` object aggregated from chunk findings; the scorer only
inspects the `gdpr` and `ccpa` keys, each of which may be absent. -/
structure Compliance where
  gdpr : Option String
  ccpa : Option String
deriving DecidableEq, Repr

/-- A parsed per-chunk finding, as produced by `analyzeChunk`
(the shape requested from the model in results.js). -/
structure ChunkFinding where
  keyPoints : List String
  redFlags : List String
  compliance : Option Compliance
  userRights : List String
deriving DecidableEq, Repr

/-- The aggregated analysis object built by `performAIAnalysis` and consumed
by `calculateRiskScores` (results.js). `compliance` is optional to model the
JavaScript truthiness guard `if (analysis.compliance)`. -/
structure Analysis where
  executiveSummary : String
  keyPoints : List String
  redFlags : List String
  recommendations : List String
  compliance : Option Compliance
  sections : List ChunkFinding
deriving DecidableEq, Repr

/-- The four-field result of `calculateRiskScores`. -/
structure RiskAssessment where
  overall : Risk
  regulatory : Risk
  transparency : Risk
  userRights : Risk
deriving DecidableEq, Repr

/-- The overall-risk computation of results.js line 403:
red if the list contains red, else yellow if it contains yellow,
else green. -/
def overallOf (risks : List Risk) : Risk :=
  if risks.contains Risk.red then Risk.red
  else if risks.contains Risk.yellow then Risk.yellow
  else Risk.green

/-- Shallow embedding of `calculateRiskScores` (results.js lines 371-411).
The JavaScript mutates three local variables in sequence; each mutation is
one `let` binding here. -/
def calculateRiskScores (analysis : Analysis) : RiskAssessment :=
  let regulatoryRisk := Risk.green
  let transparencyRisk := Risk.green
  let userRightsRisk := Risk.green
  let regulatoryRisk :=
    if analysis.redFlags.length > 0 then Risk.red else regulatoryRisk
  let transparencyRisk :=
    if analysis.redFlags.length > 0 then Risk.yellow else transparencyRisk
  let regulatoryRisk :=
    match analysis.compliance with
    | some c =>
        if c.gdpr = some "non-compliant" ∨ c.ccpa = some "non-compliant" then
          Risk.red
        else if c.gdpr = some "partially" ∨ c.ccpa = some "partially" then
          Risk.yellow
        else regulatoryRisk
    | none => regulatoryRisk
  let hasUserRights :=
    analysis.sections.any (fun sec => sec.userRights.length > 0)
  let userRightsRisk := if ¬hasUserRights then Risk.yellow else userRightsRisk
  let risks := [regulatoryRisk, transparencyRisk, userRightsRisk]
  { overall := overallOf risks
    regulatory := regulatoryRisk
    transparency := transparencyRisk
    userRights := userRightsRisk }

/-- The condition under which the compliance pass of `calculateRiskScores`
rewrites `regulatoryRisk` to yellow: some GDPR/CCPA tag is "partially"
while none is "non-compliant". -/
def partiallyDowngrade (analysis : Analysis) : Prop :=
  match analysis.compliance with
  | some c =>
      ¬(c.gdpr = some "non-compliant" ∨ c.ccpa = some "non-compliant") ∧
      (c.gdpr = some "partially" ∨ c.ccpa = some "partially")
  | none => False

instance (analysis : Analysis) : Decidable (partiallyDowngrade analysis) := by
  unfold partiallyDowngrade
  cases analysis.compliance <;> infer_instance

/-- An aggregated analysis with one red flag and a GDPR tag of
"partially": the concrete input refuting claim C1. -/
def cexAnalysisC1 : Analysis :=
  { executiveSummary := ""
    keyPoints := []
    redFlags := ["sells data to third parties"]
    recommendations := []
    compliance := some { gdpr := some "partially", ccpa := none }
    sections := [] }

/-! ## Chunker (results.js, `chunkContent`) -/

/-- JavaScript `String.prototype.trim` on a string modelled as `List Char`:
whitespace is removed from both ends. -/
def jsTrim (s : List Char) : List Char :=
  ((s.dropWhile Char.isWhitespace).reverse.dropWhile Char.isWhitespace).reverse

/-- The sentence-terminating characters of the split regex `[.!?]+`. -/
def isSentenceEnd (c : Char) : Bool := c = '.' || c = '!' || c = '?'

/-- Worker for `splitRuns`: scans the string once, emitting the piece
accumulated in `acc` when a separator is met; `afterSep` records that the
previous character was a separator, so that a maximal run of separators
produces a single boundary, as the regex `[.!?]+` does. -/
def splitRunsAux (p : Char → Bool) :
    List Char → Bool → List Char → List (List Char)
  | [], _, acc => [acc.reverse]
  | c :: cs, afterSep, acc =>
    if p c then
      if afterSep then splitRunsAux p cs true []
      else acc.reverse :: splitRunsAux p cs true []
    else splitRunsAux p cs false (c :: acc)

/-- JavaScript `content.split(/[.!?]+/)`: split on maximal runs of
sentence-terminating characters. -/
def splitRuns (p : Char → Bool) (s : List Char) : List (List Char) :=
  splitRunsAux p s false []

/-- The sentence list of `chunkContent` (results.js line 218): the split
pieces whose trimmed length exceeds 10. -/
def sentencesOf (content : List Char) : List (List Char) :=
  (splitRuns isSentenceEnd content).filter (fun s => (jsTrim s).length > 10)

/-- One iteration of the greedy chunk-building loop of `chunkContent`
(results.js lines 222-231), acting on the state
(chunks so far, current chunk). -/
def chunkStep (maxChunkSize : Nat) (st : List (List Char) × List Char)
    (sentence : List Char) : List (List Char) × List Char :=
  let chunks := st.1
  let currentChunk := st.2
  if (currentChunk ++ sentence).length > maxChunkSize then
    (if jsTrim currentChunk ≠ [] then chunks ++ [jsTrim currentChunk] else chunks,
     sentence)
  else
    (chunks,
     if currentChunk ≠ [] then currentChunk ++ '.' :: ' ' :: sentence
     else sentence)

/-- Shallow embedding of `chunkContent` (results.js lines 217-238):
sentence split, greedy concatenation, trailing-chunk flush, and the final
filter discarding chunks of length at most 50. In the source
`maxChunkSize` is a parameter whose default at the call site is 2000. -/
def chunkContent (content : List Char) (maxChunkSize : Nat) :
    List (List Char) :=
  let sentences := sentencesOf content
  let st := sentences.foldl (chunkStep maxChunkSize) ([], [])
  let chunks := if jsTrim st.2 ≠ [] then st.1 ++ [jsTrim st.2] else st.1
  chunks.filter (fun chunk => chunk.length > 50)

/-! ## Analysis orchestrator (results.js, `PolicyAnalyzer`) -/

/-- Merge of one chunk's compliance object into the aggregate, as
`Object.assign(analysis.compliance, chunkAnalysis.compliance)` acts on the
`gdpr`/`ccpa` keys: a key present in the source overwrites the target. -/
def assignCompliance (dst src : Compliance) : Compliance :=
  { gdpr := match src.gdpr with | some g => some g | none => dst.gdpr
    ccpa := match src.ccpa with | some c => some c | none => dst.ccpa }

/-- The fallback finding returned by the catch branch of `analyzeChunk`
(results.js lines 324-332). -/
def placeholderFinding : ChunkFinding :=
  { keyPoints := ["Unable to analyze this section"]
    redFlags := []
    compliance := some { gdpr := some "unknown", ccpa := some "unknown" }
    userRights := [] }

/-- Shallow embedding of `analyzeChunk` (results.js lines 292-333).
`run` is the oracle for `env.AI.run` composed with `JSON.parse` of the
model output: `none` means one of the two threw (the inference call failed
or its output was not parsable JSON), which the catch branch converts into
the placeholder finding. -/
def analyzeChunk (run : String → Option ChunkFinding) (chunk : String) :
    ChunkFinding :=
  match run chunk with
  | some finding => finding
  | none => placeholderFinding

/-- Shallow embedding of `performAIAnalysis` (results.js lines 240-290).
`gen` is the oracle for the summary inference call of
`generateSummaryAnalysis`: `none` means it threw or produced unparsable
output, in which case the static fallback summary is substituted.
The first three chunks are sampled; per-chunk findings are aggregated and
the list fields truncated to their caps. -/
def performAIAnalysis (run : String → Option ChunkFinding)
    (gen : Option (String × List String)) (chunks : List String) : Analysis :=
  let sampleChunks := chunks.take 3
  let sections := sampleChunks.map (analyzeChunk run)
  let keyPoints := sections.foldl (fun acc s => acc ++ s.keyPoints) []
  let redFlags := sections.foldl (fun acc s => acc ++ s.redFlags) []
  let compliance := sections.foldl
    (fun acc s =>
      match s.compliance with
      | some c => assignCompliance acc c
      | none => acc)
    { gdpr := none, ccpa := none }
  let executiveSummary :=
    match gen with
    | some (summary, _) => summary
    | none => "Unable to generate summary analysis."
  let recommendations :=
    match gen with
    | some (_, recs) => recs
    | none => ["Review the policy manually"]
  { executiveSummary := executiveSummary
    keyPoints := keyPoints.take 10
    redFlags := redFlags.take 5
    recommendations := recommendations.take 5
    compliance := some compliance
    sections := sections }

/-! ## TTL cache store (policy-cache.js, `PolicyCache`) -/

/-- A cache entry as built by `handleStore` (policy-cache.js lines 65-70). -/
structure CacheEntry (V : Type) where
  result : V
  timestamp : Int
  expiresAt : Int
  ttlMinutes : Int
deriving DecidableEq, Repr

/-- The durable object's observable state: the `Map` of entries (an
association list preserving insertion order) and the single pending alarm
(`storage.setAlarm` overwrites any previous one). -/
structure CacheState (V : Type) where
  cache : List (String × CacheEntry V)
  alarm : Option Int
deriving DecidableEq, Repr

/-- JavaScript `Map.prototype.set`: replace the value of an existing key in
place, otherwise append. -/
def mapSet {V : Type} : List (String × V) → String → V → List (String × V)
  | [], k, v => [(k, v)]
  | (k', v') :: rest, k, v =>
    if k' = k then (k, v) :: rest else (k', v') :: mapSet rest k v

/-- JavaScript `Map.prototype.get`, with `none` for `undefined`. -/
def mapGet {V : Type} : List (String × V) → String → Option V
  | [], _ => none
  | (k', v') :: rest, k => if k' = k then some v' else mapGet rest k

/-- Shallow embedding of `PolicyCache.handleStore` (policy-cache.js lines
53-91). The parsed request body is `(url, result, ttlMinutes)` with `none`
for an absent field; a missing or empty (falsy) `url`, or a missing
`result`, is rejected with status 400; `ttlMinutes` defaults to 30. Both
`Date.now()` reads of the handler are modelled as the single instant
`now`. Returns the HTTP status and the successor state. -/
def handleStore {V : Type} (now : Int) (url : Option String) (result : Option V)
    (ttlMinutes : Option Int) (st : CacheState V) : Nat × CacheState V :=
  match url, result with
  | some u, some r =>
    if u = "" then (400, st)
    else
      let ttl := ttlMinutes.getD 30
      let expiresAt := now + ttl * 60 * 1000
      let entry : CacheEntry V :=
        { result := r, timestamp := now, expiresAt := expiresAt,
          ttlMinutes := ttl }
      (200, { cache := mapSet st.cache u entry, alarm := some expiresAt })
  | _, _ => (400, st)

/-- Outcome of `PolicyCache.handleCheck` as observed by its caller. -/
inductive CheckResponse (V : Type) where
  | badRequest
  | found (result : V) (timestamp : Int) (expiresAt : Int)
  | notFound
deriving DecidableEq, Repr

/-- Shallow embedding of `PolicyCache.handleCheck` (policy-cache.js lines
93-124): the entry is served only when `cached.expiresAt > Date.now()`;
an absent or expired entry yields 404. -/
def handleCheck {V : Type} (now : Int) (url : Option String)
    (st : CacheState V) : CheckResponse V :=
  match url with
  | none => CheckResponse.badRequest
  | some u =>
    if u = "" then CheckResponse.badRequest
    else
      match mapGet st.cache u with
      | some cached =>
        if cached.expiresAt > now then
          CheckResponse.found cached.result cached.timestamp cached.expiresAt
        else CheckResponse.notFound
      | none => CheckResponse.notFound

/-- Shallow embedding of `PolicyCache.alarm` (policy-cache.js lines
225-249): firing consumes the pending alarm, evicts entries with
`expiresAt ≤ now`, and reschedules for the minimum remaining `expiresAt`
if any entries remain. -/
def cacheAlarm {V : Type} (now : Int) (st : CacheState V) : CacheState V :=
  let kept := st.cache.filter (fun p => !(p.2.expiresAt ≤ now : Bool))
  let nextAlarm :=
    match kept with
    | [] => none
    | p :: rest => some (rest.foldl (fun m q => min m q.2.expiresAt) p.2.expiresAt)
  { cache := kept, alarm := nextAlarm }

/-- Modelled from the spec: the earliest `expiresAt` across all entries in
the partition, the wake-up time that section 4.7 of the spec says `put`
(re)schedules. Written from the spec's words for comparison with the
alarm actually set by `handleStore`. -/
def specEarliestExpiry {V : Type} (entries : List (String × CacheEntry V)) :
    Option Int :=
  match entries with
  | [] => none
  | p :: rest => some (rest.foldl (fun m q => min m q.2.expiresAt) p.2.expiresAt)

/-! ## Rate limiter (validation.js, `checkRateLimit`) -/

/-- Shallow embedding of `checkRateLimit` (validation.js lines 59-81) for
one identifier. `store` is the timestamp list held in `rateLimitStore` for
the identifier (`[]` when absent). The first component is `true` when the
call is allowed; the second is the identifier's stored list after the
call — on the throwing path the function exits before `push`/`set`, so
the entry state at the throw is the entry state at the call. -/
def checkRateLimit (now windowMs : Int) (maxRequests : Nat)
    (store : List Int) : Bool × List Int :=
  let validRequests := store.filter (fun time => now - time < windowMs)
  if validRequests.length ≥ maxRequests then (false, store)
  else (true, validRequests ++ [now])

/-- Sequential calls to `checkRateLimit` for one identifier at the given
instants, threading the stored list; stops at the first denial. -/
def runRateLimit (windowMs : Int) (maxRequests : Nat) :
    List Int → List Int → Bool × List Int
  | [], store => (true, store)
  | t :: ts, store =>
    let r := checkRateLimit t windowMs maxRequests store
    if r.1 then runRateLimit windowMs maxRequests ts r.2 else (false, r.2)

/-! ## Analyze endpoint (`handleAnalyze`) -/

/-- The parsed JSON body of an analyze request; only `url` steers the
control flow being verified. -/
structure AnalyzeBody where
  url : Option String
deriving DecidableEq, Repr

/-- Oracles for the effects performed by `handleAnalyze`, in program order:
`body` is the outcome of `request.json()` (`none`: it threw);
`validateUrl` is `validatePolicyUrl` (`Except.error`: it threw);
`rateLimit` is `checkRateLimit` for this client;
`cacheCheck` is the `/check` sub-request, yielding the response status and
the parsed body (`none` when the body is not the expected JSON);
`analyze` is `analyzer.analyzePolicy`; `cacheStore` is the `/store`
sub-request, yielding its response status, with `Except.error` meaning the
`fetch` call itself threw. -/
structure AnalyzeEnv (V : Type) where
  methodPost : Bool
  body : Option AnalyzeBody
  validateUrl : String → Except Unit String
  rateLimit : Except Unit Unit
  cacheCheck : Except Unit (Nat × Option (V × Int))
  analyze : Except Unit V
  cacheStore : Except Unit Nat

/-- The JSON response of `handleAnalyze`, projected to the fields the
claims are about. -/
structure ApiResponse (V : Type) where
  status : Nat
  success : Bool
  result : Option V
  cached : Option Bool
deriving DecidableEq, Repr

/-- Shallow embedding of `handleAnalyze` (the analyze API endpoint):
method check, body parse, URL presence and validation (400), rate limit
(429), cache check (a 200 serves the cached result), fresh analysis, cache
store, and the outer catch that turns any uncaught exception — including
one thrown by the store sub-request — into a 500 failure response. -/
def handleAnalyze {V : Type} (e : AnalyzeEnv V) : ApiResponse V :=
  if ¬e.methodPost then
    { status := 405, success := false, result := none, cached := none }
  else
    match e.body with
    | none => { status := 400, success := false, result := none, cached := none }
    | some body =>
      match body.url with
      | none => { status := 400, success := false, result := none, cached := none }
      | some u =>
        if u = "" then
          { status := 400, success := false, result := none, cached := none }
        else
          match e.validateUrl u with
          | Except.error _ =>
            { status := 400, success := false, result := none, cached := none }
          | Except.ok _ =>
            match e.rateLimit with
            | Except.error _ =>
              { status := 429, success := false, result := none, cached := none }
            | Except.ok _ =>
              match e.cacheCheck with
              | Except.error _ =>
                { status := 500, success := false, result := none, cached := none }
              | Except.ok (checkStatus, payload) =>
                if checkStatus = 200 then
                  match payload with
                  | some (v, _) =>
                    { status := 200, success := true, result := some v,
                      cached := some true }
                  | none =>
                    { status := 500, success := false, result := none,
                      cached := none }
                else
                  match e.analyze with
                  | Except.error _ =>
                    { status := 500, success := false, result := none,
                      cached := none }
                  | Except.ok v =>
                    match e.cacheStore with
                    | Except.error _ =>
                      { status := 500, success := false, result := none,
                        cached := none }
                    | Except.ok _ =>
                      { status := 200, success := true, result := some v,
                        cached := some false }

/-- The analyze environment refuting claim C6: the whole pipeline succeeds
(cache miss, fresh analysis computed) but the store sub-request throws. -/
def cexAnalyzeEnv : AnalyzeEnv Nat :=
  { methodPost := true
    body := some { url := some "https://example.com/privacy" }
    validateUrl := fun u => Except.ok u
    rateLimit := Except.ok ()
    cacheCheck := Except.ok (404, none)
    analyze := Except.ok 42
    cacheStore := Except.error () }

/-! ## Helper lemmas -/

theorem dropWhile_length_le (p : Char → Bool) (l : List Char) :
    (l.dropWhile p).length ≤ l.length := by
  induction l with
  | nil => simp
  | cons c cs ih =>
    by_cases h : p c
    · simp only [List.dropWhile_cons, h, if_true, List.length_cons]
      omega
    · simp [List.dropWhile_cons, h]

theorem jsTrim_length_le (s : List Char) : (jsTrim s).length ≤ s.length := by
  unfold jsTrim
  calc ((s.dropWhile Char.isWhitespace).reverse.dropWhile
          Char.isWhitespace).reverse.length
      = ((s.dropWhile Char.isWhitespace).reverse.dropWhile
          Char.isWhitespace).length := by simp
    _ ≤ (s.dropWhile Char.isWhitespace).reverse.length := dropWhile_length_le _ _
    _ = (s.dropWhile Char.isWhitespace).length := by simp
    _ ≤ s.length := dropWhile_length_le _ _

theorem jsTrim_replicate_a (n : Nat) :
    jsTrim (List.replicate n 'a') = List.replicate n 'a' := by
  cases n with
  | zero => rfl
  | succ m =>
    unfold jsTrim
    rw [List.replicate_succ, List.dropWhile_cons]
    simp only [show Char.isWhitespace 'a' = false from rfl, Bool.false_eq_true,
      if_false]
    rw [← List.replicate_succ, List.reverse_replicate, List.replicate_succ,
      List.dropWhile_cons]
    simp only [show Char.isWhitespace 'a' = false from rfl, Bool.false_eq_true,
      if_false]
    rw [← List.replicate_succ, List.reverse_replicate]

theorem splitRunsAux_of_no_sep (p : Char → Bool) (l : List Char) :
    ∀ acc : List Char, (∀ c ∈ l, p c = false) →
      splitRunsAux p l false acc = [acc.reverse ++ l] := by
  induction l with
  | nil => intro acc _; simp [splitRunsAux]
  | cons c cs ih =>
    intro acc h
    have hc : p c = false := h c (List.mem_cons_self c cs)
    rw [splitRunsAux, if_neg (by simp [hc])]
    rw [ih (c :: acc) (fun d hd => h d (List.mem_cons_of_mem c hd))]
    simp

theorem sentencesOf_replicate_a (n : Nat) (h10 : 10 < n) :
    sentencesOf (List.replicate n 'a') = [List.replicate n 'a'] := by
  unfold sentencesOf splitRuns
  rw [splitRunsAux_of_no_sep isSentenceEnd _ []
    (fun c hc => by rw [List.eq_of_mem_replicate hc]; rfl)]
  simp only [List.reverse_nil, List.nil_append, List.filter_cons, List.filter_nil,
    jsTrim_replicate_a, List.length_replicate]
  rw [if_pos]
  simp only [gt_iff_lt, decide_eq_true_eq]
  exact h10

theorem chunkContent_replicate_a (n maxCS : Nat) (h10 : 10 < n) (h50 : 50 < n)
    (hmax : maxCS < n) :
    chunkContent (List.replicate n 'a') maxCS = [List.replicate n 'a'] := by
  have hne : List.replicate n 'a' ≠ [] := by
    intro hnil
    have := congrArg List.length hnil
    rw [List.length_replicate] at this
    simp at this
    omega
  have hstep : chunkStep maxCS ([], []) (List.replicate n 'a') =
      ([], List.replicate n 'a') := by
    unfold chunkStep
    simp only [List.nil_append, List.length_replicate]
    rw [if_pos (show n > maxCS from hmax)]
    simp [show jsTrim ([] : List Char) = [] from rfl]
  unfold chunkContent
  rw [sentencesOf_replicate_a n h10]
  simp only [List.foldl_cons, List.foldl_nil, hstep]
  rw [jsTrim_replicate_a, if_pos hne]
  simp only [List.nil_append, List.filter_cons, List.filter_nil,
    List.length_replicate, gt_iff_lt, decide_eq_true_eq]
  rw [if_pos h50]

theorem chunkLoop_bound (maxCS L B : Nat) (hB1 : maxCS + 2 ≤ B) (hB2 : L ≤ B)
    (sentences : List (List Char)) :
    ∀ st : List (List Char) × List Char,
      (∀ c ∈ st.1, c.length ≤ B) → st.2.length ≤ B →
      (∀ s ∈ sentences, s.length ≤ L) →
      (∀ c ∈ (sentences.foldl (chunkStep maxCS) st).1, c.length ≤ B) ∧
        (sentences.foldl (chunkStep maxCS) st).2.length ≤ B := by
  induction sentences with
  | nil => intro st h1 h2 _; exact ⟨h1, h2⟩
  | cons s ss ih =>
    intro st h1 h2 hs
    rw [List.foldl_cons]
    have hsL : s.length ≤ L := hs s (List.mem_cons_self s ss)
    refine ih (chunkStep maxCS st s) ?_ ?_
      (fun s' hs' => hs s' (List.mem_cons_of_mem s hs'))
    · intro c hc
      unfold chunkStep at hc
      by_cases hover : (st.2 ++ s).length > maxCS
      · rw [if_pos hover] at hc
        simp only at hc
        by_cases htr : jsTrim st.2 ≠ []
        · rw [if_pos htr] at hc
          rcases List.mem_append.mp hc with h | h
          · exact h1 c h
          · rw [List.mem_singleton.mp h]
            exact le_trans (jsTrim_length_le st.2) h2
        · rw [if_neg htr] at hc
          exact h1 c hc
      · rw [if_neg hover] at hc
        exact h1 c hc
    · unfold chunkStep
      by_cases hover : (st.2 ++ s).length > maxCS
      · rw [if_pos hover]
        exact le_trans hsL hB2
      · rw [if_neg hover]
        simp only
        by_cases hcc : st.2 ≠ []
        · rw [if_pos hcc]
          have hlen : (st.2 ++ s).length ≤ maxCS := by omega
          rw [List.length_append] at hlen
          simp only [List.length_append, List.length_cons]
          omega
        · rw [if_neg hcc]
          exact le_trans hsL hB2

theorem mapGet_mapSet {V : Type} (m : List (String × V)) (k : String) (v : V) :
    mapGet (mapSet m k v) k = some v := by
  induction m with
  | nil => simp [mapSet, mapGet]
  | cons p rest ih =>
    by_cases h : p.1 = k
    · simp [mapSet, mapGet, h]
    · simp only [mapSet, mapGet, h, if_false, if_neg h]
      exact ih

theorem runRateLimit_all_ok (win : Int) (cap : Nat) :
    ∀ ts store : List Int,
      (∀ t ∈ ts, ∀ s ∈ store, t - s < win) →
      (∀ t ∈ ts, ∀ s ∈ ts, t - s < win) →
      store.length + ts.length ≤ cap →
      runRateLimit win cap ts store = (true, store ++ ts) := by
  intro ts
  induction ts with
  | nil => intro store _ _ _; simp [runRateLimit]
  | cons t rest ih =>
    intro store hsto hts hlen
    have hfilter : store.filter (fun s => t - s < win) = store :=
      List.filter_eq_self.mpr (fun s hs => by
        simp only [decide_eq_true_eq]
        exact hsto t (List.mem_cons_self t rest) s hs)
    have hstep : checkRateLimit t win cap store = (true, store ++ [t]) := by
      unfold checkRateLimit
      rw [hfilter, if_neg (by simp only [List.length_cons] at hlen; omega)]
    rw [runRateLimit, hstep]
    simp only [if_true]
    rw [ih (store ++ [t])
      (fun t' ht' s hs => by
        rcases List.mem_append.mp hs with h | h
        · exact hsto t' (List.mem_cons_of_mem t ht') s h
        · rw [List.mem_singleton.mp h]
          exact hts t' (List.mem_cons_of_mem t ht') t (List.mem_cons_self t rest))
      (fun t' ht' s hs =>
        hts t' (List.mem_cons_of_mem t ht') s (List.mem_cons_of_mem t hs))
      (by simp only [List.length_append, List.length_cons, List.length_nil,
            List.length_singleton] at hlen ⊢; omega)]
    simp

theorem handleStore_some {V : Type} (now : Int) (u : String) (r : V)
    (ttl : Option Int) (st : CacheState V) :
    handleStore now (some u) (some r) ttl st =
      if u = "" then (400, st)
      else
        (200,
          { cache := mapSet st.cache u
              { result := r, timestamp := now,
                expiresAt := now + ttl.getD 30 * 60 * 1000,
                ttlMinutes := ttl.getD 30 }
            alarm := some (now + ttl.getD 30 * 60 * 1000) }) := rfl

theorem handleCheck_some {V : Type} (now : Int) (u : String)
    (st : CacheState V) :
    handleCheck now (some u) st =
      if u = "" then CheckResponse.badRequest
      else
        match mapGet st.cache u with
        | some cached =>
          if cached.expiresAt > now then
            CheckResponse.found cached.result cached.timestamp cached.expiresAt
          else CheckResponse.notFound
        | none => CheckResponse.notFound := rfl

/-! ## Claim theorems -/

/-- C1 counterexample: an aggregated analysis with a non-empty `redFlags`
list and a GDPR compliance tag of "partially" gets `regulatory = yellow`,
not red: the compliance pass of `calculateRiskScores` overwrites the red
set by the red-flag pass. -/
theorem claim1_counterexample :
    cexAnalysisC1.redFlags ≠ [] ∧
    (calculateRiskScores cexAnalysisC1).regulatory ≠ Risk.red := by
  decide

/-- C1, amended: a non-empty `redFlags` list forces `transparency = yellow`
and `regulatory ≥ yellow`; `regulatory` is red unless some GDPR/CCPA tag
equals "partially" while none equals "non-compliant", in which case the
compliance pass downgrades it to exactly yellow. -/
theorem redFlags_force_severity (a : Analysis) (h : a.redFlags ≠ []) :
    (calculateRiskScores a).transparency = Risk.yellow ∧
    riskLe Risk.yellow (calculateRiskScores a).regulatory ∧
    ((calculateRiskScores a).regulatory = Risk.yellow ↔ partiallyDowngrade a) := by
  have hlen : a.redFlags.length > 0 := List.length_pos.mpr h
  unfold calculateRiskScores partiallyDowngrade
  cases hc : a.compliance with
  | none => simp [hlen, riskLe, riskRank]
  | some c =>
    by_cases h1 : c.gdpr = some "non-compliant" ∨ c.ccpa = some "non-compliant"
    · simp [hlen, h1, riskLe, riskRank]
    · by_cases h2 : c.gdpr = some "partially" ∨ c.ccpa = some "partially"
      · simp [hlen, h1, h2, riskLe, riskRank]
      · simp [hlen, h1, h2, riskLe, riskRank]

/-- Witness for the amended C1 at a concrete analysis with one red flag and
no compliance object. -/
theorem redFlags_force_severity_witness :
    (calculateRiskScores
        { executiveSummary := ""
          keyPoints := []
          redFlags := ["retains data indefinitely"]
          recommendations := []
          compliance := none
          sections := [] }).transparency = Risk.yellow ∧
    riskLe Risk.yellow
      (calculateRiskScores
        { executiveSummary := ""
          keyPoints := []
          redFlags := ["retains data indefinitely"]
          recommendations := []
          compliance := none
          sections := [] }).regulatory ∧
    ((calculateRiskScores
        { executiveSummary := ""
          keyPoints := []
          redFlags := ["retains data indefinitely"]
          recommendations := []
          compliance := none
          sections := [] }).regulatory = Risk.yellow ↔
      partiallyDowngrade
        { executiveSummary := ""
          keyPoints := []
          redFlags := ["retains data indefinitely"]
          recommendations := []
          compliance := none
          sections := [] }) :=
  redFlags_force_severity _ (by decide)

/-- C2: the `overall` field computed by `calculateRiskScores` is the
maximum of the three axis values under green < yellow < red, and the
inline overall computation agrees with the maximum on every combination of
three severity levels. -/
theorem overall_is_componentwise_max :
    (∀ x y z : Risk, overallOf [x, y, z] = riskMax x (riskMax y z)) ∧
    (∀ a : Analysis,
      (calculateRiskScores a).overall =
        riskMax (calculateRiskScores a).regulatory
          (riskMax (calculateRiskScores a).transparency
            (calculateRiskScores a).userRights)) := by
  have hmax : ∀ x y z : Risk, overallOf [x, y, z] = riskMax x (riskMax y z) := by
    intro x y z
    cases x <;> cases y <;> cases z <;> rfl
  refine ⟨hmax, fun a => ?_⟩
  unfold calculateRiskScores
  exact hmax _ _ _

/-- C3 counterexample: a single 2001-character sentence is returned by
`chunkContent` as one chunk of length 2001, exceeding the default
`maxChunkSize` of 2000. -/
theorem claim3_counterexample :
    ∃ c ∈ chunkContent (List.replicate 2001 'a') 2000, 2000 < c.length := by
  refine ⟨List.replicate 2001 'a', ?_, by rw [List.length_replicate]; omega⟩
  rw [chunkContent_replicate_a 2001 2000 (by omega) (by omega) (by omega)]
  exact List.mem_singleton_self _

/-- C3, amended: every chunk returned by `chunkContent` has length at most
`max (maxChunkSize + 2) L`, where `L` bounds the length of every
individual sentence: a chunk can exceed `maxChunkSize` only by being one
oversized sentence, or by the two separator characters appended after the
guard has compared lengths without them. -/
theorem chunk_length_bound (content : List Char) (maxCS L : Nat)
    (hL : ∀ s ∈ sentencesOf content, s.length ≤ L) :
    ∀ c ∈ chunkContent content maxCS, c.length ≤ Nat.max (maxCS + 2) L := by
  intro c hc
  unfold chunkContent at hc
  rw [List.mem_filter] at hc
  obtain ⟨hc, _⟩ := hc
  have hmain := chunkLoop_bound maxCS L (Nat.max (maxCS + 2) L)
    (Nat.le_max_left _ _) (Nat.le_max_right _ _) (sentencesOf content)
    ([], []) (by simp) (by simp) hL
  set st := (sentencesOf content).foldl (chunkStep maxCS) ([], []) with hst
  by_cases htr : jsTrim st.2 ≠ []
  · rw [if_pos htr] at hc
    rcases List.mem_append.mp hc with h | h
    · exact hmain.1 c h
    · rw [List.mem_singleton.mp h]
      exact le_trans (jsTrim_length_le st.2) hmain.2
  · rw [if_neg htr] at hc
    exact hmain.1 c hc

/-- Witness for the amended C3: a 60-character single-sentence input with
`maxChunkSize = 70` yields that very sentence as a chunk within the bound. -/
theorem chunk_length_bound_witness :
    (List.replicate 60 'a').length ≤ Nat.max 72 60 :=
  chunk_length_bound (List.replicate 60 'a') 70 60 (by decide)
    (List.replicate 60 'a') (by decide)

/-- C4: storing `(k, v, ttl)` with positive `ttl` and then checking `k`
strictly before `expiresAt` returns exactly `v` with the stored timestamp
and expiry; checking at or after `expiresAt` is a miss, with no eviction
alarm having run in between. -/
theorem cache_roundtrip {V : Type} (now t1 t2 ttl : Int) (u : String) (r : V)
    (st : CacheState V) (hu : u ≠ "") (httl : 0 < ttl)
    (h1 : t1 < now + ttl * 60 * 1000) (h2 : now + ttl * 60 * 1000 ≤ t2) :
    handleCheck t1 (some u) (handleStore now (some u) (some r) (some ttl) st).2 =
      CheckResponse.found r now (now + ttl * 60 * 1000) ∧
    handleCheck t2 (some u) (handleStore now (some u) (some r) (some ttl) st).2 =
      CheckResponse.notFound := by
  rw [handleStore_some, if_neg hu]
  rw [handleCheck_some, handleCheck_some, if_neg hu, if_neg hu]
  simp only [Option.getD_some, mapGet_mapSet]
  constructor
  · rw [if_pos (by simpa using h1)]
  · rw [if_neg (by simpa using not_lt.mpr h2)]

/-- Witness for C4: key "k", value 7, one-minute TTL, stored at time 0,
checked at 59999 (hit) and 60000 (miss). -/
theorem cache_roundtrip_witness :
    handleCheck 59999 (some "k")
      (handleStore 0 (some "k") (some (7 : Nat)) (some 1)
        { cache := [], alarm := none }).2 =
      CheckResponse.found 7 0 60000 ∧
    handleCheck 60000 (some "k")
      (handleStore 0 (some "k") (some (7 : Nat)) (some 1)
        { cache := [], alarm := none }).2 =
      CheckResponse.notFound := by
  have h := cache_roundtrip (V := Nat) 0 59999 60000 1 "k" 7
    { cache := [], alarm := none } (by decide) (by decide) (by decide) (by decide)
  simpa using h

/-- C5 counterexample: two stores into one partition, the second with the
later expiry. After the second store the pending alarm is the new entry's
`expiresAt` (120000), not the earliest expiry across the partition
(60000). -/
theorem claim5_counterexample :
    ((handleStore 0 (some "b") (some (2 : Nat)) (some 2)
        (handleStore 0 (some "a") (some (1 : Nat)) (some 1)
          { cache := [], alarm := none }).2).2).alarm = some 120000 ∧
    specEarliestExpiry
      ((handleStore 0 (some "b") (some (2 : Nat)) (some 2)
        (handleStore 0 (some "a") (some (1 : Nat)) (some 1)
          { cache := [], alarm := none }).2).2).cache = some 60000 ∧
    ((handleStore 0 (some "b") (some (2 : Nat)) (some 2)
        (handleStore 0 (some "a") (some (1 : Nat)) (some 1)
          { cache := [], alarm := none }).2).2).alarm ≠
      specEarliestExpiry
        ((handleStore 0 (some "b") (some (2 : Nat)) (some 2)
          (handleStore 0 (some "a") (some (1 : Nat)) (some 1)
            { cache := [], alarm := none }).2).2).cache := by
  decide

/-- C5, amended: a successful store schedules the single pending wake-up at
the `expiresAt` of the entry just inserted, overwriting any previously
scheduled wake-up, whether or not an older entry expires earlier; only the
alarm handler itself reschedules by the minimum remaining expiry. -/
theorem store_sets_alarm_to_new_entry {V : Type} (now : Int) (u : String)
    (r : V) (ttl : Option Int) (st : CacheState V) (hu : u ≠ "") :
    ((handleStore now (some u) (some r) ttl st).2).alarm =
      some (now + ttl.getD 30 * 60 * 1000) := by
  rw [handleStore_some, if_neg hu]

/-- Witness for the amended C5: a store with the default TTL into a
partition holding an earlier-expiring entry. -/
theorem store_sets_alarm_to_new_entry_witness :
    ((handleStore 0 (some "b") (some (2 : Nat)) none
        { cache := [("a", CacheEntry.mk 1 0 60000 1)]
          alarm := some 60000 }).2).alarm = some 1800000 :=
  store_sets_alarm_to_new_entry 0 "b" 2 none _ (by decide)

/-- C9 counterexample: `handleStore` accepts `ttlMinutes = 0` and creates
an entry whose `expiresAt` equals its creation timestamp, violating
`expiresAt > createdAt`. -/
theorem claim9_counterexample :
    mapGet ((handleStore 5 (some "k") (some (1 : Nat)) (some 0)
        { cache := [], alarm := none }).2).cache "k" =
      some { result := 1, timestamp := 5, expiresAt := 5, ttlMinutes := 0 } ∧
    ¬(5 : Int) < 5 := by
  decide

/-- C9, amended: an entry created by `handleStore` has
`expiresAt = createdAt + ttlMinutes·60000`, so `expiresAt > createdAt`
holds exactly when the caller-supplied `ttlMinutes` is positive (as the
default 30 is); the handler also accepts zero or negative values, which
yield `expiresAt ≤ createdAt`. -/
theorem store_expiry_after_creation {V : Type} (now ttl : Int) (u : String)
    (r : V) (st : CacheState V) (hu : u ≠ "") (httl : 0 < ttl) :
    mapGet ((handleStore now (some u) (some r) (some ttl) st).2).cache u =
      some { result := r, timestamp := now, expiresAt := now + ttl * 60 * 1000,
             ttlMinutes := ttl } ∧
    now < now + ttl * 60 * 1000 := by
  constructor
  · rw [handleStore_some, if_neg hu]
    simp only [Option.getD_some]
    exact mapGet_mapSet st.cache u _
  · omega

/-- Witness for the amended C9 at `ttlMinutes = 1`. -/
theorem store_expiry_after_creation_witness :
    mapGet ((handleStore 5 (some "k") (some (1 : Nat)) (some 1)
        { cache := [], alarm := none }).2).cache "k" =
      some { result := 1, timestamp := 5, expiresAt := 60005, ttlMinutes := 1 } ∧
    (5 : Int) < 60005 := by
  have h := store_expiry_after_creation (V := Nat) 5 1 "k" 1
    { cache := [], alarm := none } (by decide) (by decide)
  simpa using h

/-- C8: for one identifier starting from an empty window, `maxRequests`
calls at instants all within one window of each other are all allowed and
recorded; a further call still within the window of every recorded
timestamp is denied; and a call made once every recorded timestamp is at
least `windowMs` old is allowed again onto a fresh window. -/
theorem rate_limit_boundary (win : Int) (cap : Nat) (ts : List Int)
    (tDeny tLater : Int) (hcap : 0 < cap) (hlen : ts.length = cap)
    (hpairs : ∀ t ∈ ts, ∀ s ∈ ts, t - s < win)
    (hdeny : ∀ s ∈ ts, tDeny - s < win)
    (hlater : ∀ s ∈ ts, win ≤ tLater - s) :
    runRateLimit win cap ts [] = (true, ts) ∧
    checkRateLimit tDeny win cap ts = (false, ts) ∧
    checkRateLimit tLater win cap ts = (true, [tLater]) := by
  refine ⟨?_, ?_, ?_⟩
  · have h := runRateLimit_all_ok win cap ts []
      (fun t _ s hs => absurd hs (List.not_mem_nil s)) hpairs
      (by simp [hlen])
    simpa using h
  · unfold checkRateLimit
    rw [List.filter_eq_self.mpr (fun s hs => by
      simp only [decide_eq_true_eq]
      exact hdeny s hs)]
    rw [if_pos (by omega)]
  · unfold checkRateLimit
    rw [List.filter_eq_nil_iff.mpr (fun s hs => by
      simp only [decide_eq_true_eq]
      exact not_lt.mpr (hlater s hs))]
    rw [if_neg (by simp only [List.length_nil]; omega)]
    simp

/-- Witness for C8: window 3ms, cap 2, allows 0 and 1, denial at 2,
readmission at 5. -/
theorem rate_limit_boundary_witness :
    runRateLimit 3 2 [0, 1] [] = (true, [0, 1]) ∧
    checkRateLimit 2 3 2 [0, 1] = (false, [0, 1]) ∧
    checkRateLimit 5 3 2 [0, 1] = (true, [5]) :=
  rate_limit_boundary 3 2 [0, 1] 2 5 (by decide) (by decide) (by decide)
    (by decide) (by decide)

/-- C10: a denied `checkRateLimit` call leaves the identifier's stored
window exactly as it was: the throw happens before the current timestamp
is pushed and before the pruned list is written back. -/
theorem rate_limit_denied_state (now win : Int) (cap : Nat) (store : List Int)
    (h : (checkRateLimit now win cap store).1 = false) :
    (checkRateLimit now win cap store).2 = store := by
  unfold checkRateLimit at h ⊢
  by_cases hc : (store.filter (fun time => now - time < win)).length ≥ cap
  · rw [if_pos hc]
  · rw [if_neg hc] at h
    simp at h

/-- Witness for C10: a denial with cap 0 leaves the stored window
unchanged. -/
theorem rate_limit_denied_state_witness :
    (checkRateLimit 7 3 0 [1, 2]).2 = [1, 2] :=
  rate_limit_denied_state 7 3 0 [1, 2] (by decide)

/-- C6 counterexample: every stage up to and including the fresh analysis
succeeds, the store sub-request throws, and the handler returns the 500
failure response instead of the computed result: the store `fetch` is not
wrapped in its own try/catch, so its exception reaches the outer catch. -/
theorem claim6_counterexample :
    cexAnalyzeEnv.methodPost = true ∧
    cexAnalyzeEnv.analyze = Except.ok 42 ∧
    cexAnalyzeEnv.cacheStore = Except.error () ∧
    handleAnalyze cexAnalyzeEnv =
      { status := 500, success := false, result := none, cached := none } := by
  refine ⟨rfl, rfl, rfl, ?_⟩
  rfl

/-- C6, amended: a cache-store failure surfaced as an error response does
not fail the analyze request — the handler ignores the store response
status entirely, so the freshly computed result is returned with
`success = true` for any returned status (in particular the 500 the cache
partition responds with when its own storage write throws); only a store
sub-request that itself throws fails the request via the outer catch. -/
theorem analyze_ignores_store_response {V : Type} (e : AnalyzeEnv V)
    (u href : String) (v : V) (checkStatus storeStatus : Nat)
    (payload : Option (V × Int))
    (hm : e.methodPost = true)
    (hb : e.body = some { url := some u }) (hu : u ≠ "")
    (hv : e.validateUrl u = Except.ok href)
    (hr : e.rateLimit = Except.ok ())
    (hc : e.cacheCheck = Except.ok (checkStatus, payload))
    (hmiss : checkStatus ≠ 200)
    (ha : e.analyze = Except.ok v)
    (hs : e.cacheStore = Except.ok storeStatus) :
    handleAnalyze e =
      { status := 200, success := true, result := some v,
        cached := some false } := by
  unfold handleAnalyze
  rw [hm, hb]
  simp only [not_true_eq_false, if_false, reduceIte]
  rw [if_neg hu, hv, hr, hc]
  simp only
  rw [if_neg hmiss, ha, hs]

/-- Witness for the amended C6: the store sub-request returns a 500 error
response and the analyze request still succeeds with the fresh result. -/
theorem analyze_ignores_store_response_witness :
    handleAnalyze
      { methodPost := true
        body := some { url := some "https://example.com/privacy" }
        validateUrl := fun u => Except.ok u
        rateLimit := Except.ok ()
        cacheCheck := Except.ok (404, none)
        analyze := Except.ok (42 : Nat)
        cacheStore := Except.ok 500 } =
      { status := 200, success := true, result := some 42,
        cached := some false } :=
  analyze_ignores_store_response _ "https://example.com/privacy"
    "https://example.com/privacy" 42 404 500 none rfl rfl (by decide) rfl rfl
    rfl (by decide) rfl rfl

/-- C7: a chunk whose inference-plus-parse oracle fails yields exactly the
placeholder finding, and `performAIAnalysis` still maps every sampled
chunk (the first three) to a finding — in particular the failed chunk's
placeholder appears in `sections` and the aggregation returns an analysis
rather than failing. -/
theorem chunk_failure_degrades (run : String → Option ChunkFinding)
    (gen : Option (String × List String)) (chunks : List String)
    (chunk : String) (h : run chunk = none) :
    analyzeChunk run chunk =
      { keyPoints := ["Unable to analyze this section"]
        redFlags := []
        compliance := some { gdpr := some "unknown", ccpa := some "unknown" }
        userRights := [] } ∧
    (performAIAnalysis run gen chunks).sections =
      (chunks.take 3).map (analyzeChunk run) ∧
    (chunk ∈ chunks.take 3 →
      placeholderFinding ∈ (performAIAnalysis run gen chunks).sections) := by
  have hplace : analyzeChunk run chunk = placeholderFinding := by
    unfold analyzeChunk
    rw [h]
  refine ⟨hplace, rfl, fun hmem => ?_⟩
  show placeholderFinding ∈ (chunks.take 3).map (analyzeChunk run)
  rw [← hplace]
  exact List.mem_map_of_mem (analyzeChunk run) hmem

/-- Witness for C7: a one-chunk request whose inference call fails. -/
theorem chunk_failure_degrades_witness :
    analyzeChunk (fun _ => none) "some policy text" =
      { keyPoints := ["Unable to analyze this section"]
        redFlags := []
        compliance := some { gdpr := some "unknown", ccpa := some "unknown" }
        userRights := [] } ∧
    (performAIAnalysis (fun _ => none) none ["some policy text"]).sections =
      (["some policy text"].take 3).map (analyzeChunk (fun _ => none)) ∧
    ("some policy text" ∈ ["some policy text"].take 3 →
      placeholderFinding ∈
        (performAIAnalysis (fun _ => none) none ["some policy text"]).sections) :=
  chunk_failure_degrades (fun _ => none) none ["some policy text"]
    "some policy text" rfl
